import Mathlib

/-!
Shallow embedding of the RPM process supervisor (src/process.rs, src/config.rs,
src/ipc.rs, src/cli.rs, src/error.rs) and verification of the specification
claims about it.

Modelling conventions:
* Machine integers (`u32`, `u64`, `usize`) become `Nat`; the program performs no
  arithmetic where overflow is reachable (counters and divisions only).
* `f64` becomes `F64`: a finite rational or one of the non-finite values.
  serde_json prints a finite `f64` as its shortest decimal form, which parses
  back to the same value, so finite doubles are in bijection with the rationals
  that model them; non-finite doubles are serialized as JSON `null`.
* `DateTime<Utc>` is identified with its canonical RFC 3339 text, the exact
  string chrono's serde support writes and reparses; the model stores that
  `String` directly.
* `Instant` becomes `Nat` milliseconds on a monotonic clock;
  `Duration::from_secs(5)` is `restartCooldownMs = 5000`.
* Effects of the operating system are passed in explicitly: a spawn attempt
  yields a `SpawnOutcome`, a `try_wait` call yields a `TryWaitOutcome`, and
  fresh UUIDs / wall-clock stamps are arguments.  The SIGTERM signals a call
  sends are returned as a list of pids, so that "the child was stopped" is
  observable.
* The persisted `processes.json` file is modelled as the parsed list of
  `ProcessConfig` it contains (`none` = file absent); `ProcessConfig` holds no
  floats, so its serde round trip is the identity and the file is faithfully
  represented by its parse.
-/

namespace RPM

/-- `ProcessStatus` from src/process.rs. -/
inductive ProcessStatus
  | Running
  | Stopped
  | Errored
  | Restarting
deriving DecidableEq

/-- `ProcessConfig` from src/cli.rs. -/
structure ProcessConfig where
  name : String
  command : String
  cwd : Option String
  instances : Nat
  autorestart : Bool
  max_memory : Option Nat
  env : List (String × String)
deriving DecidableEq

/-- Model of Rust `f64`: a finite value (a rational, injectively representing
the finite doubles) or a non-finite value. -/
inductive F64
  | finite (q : Rat)
  | nan
  | posInf
  | negInf
deriving DecidableEq

/-- `ProcessInfo` from src/process.rs.  `started_at` is the `DateTime<Utc>`
identified with its canonical RFC 3339 text. -/
structure ProcessInfo where
  id : String
  name : String
  command : String
  status : ProcessStatus
  pid : Option Nat
  cpu_usage : F64
  memory_usage : Nat
  started_at : String
  restarts : Nat
  config : ProcessConfig
deriving DecidableEq

/-- A `tokio::process::Child` handle; `pid` is what `Child::id()` returns. -/
structure Child where
  pid : Option Nat
deriving DecidableEq

/-- `ManagedProcess` from src/process.rs; `last_restart` is the `Instant` in
monotonic milliseconds. -/
structure ManagedProcess where
  info : ProcessInfo
  child : Option Child
  last_restart : Option Nat
  log_buffer : List String
deriving DecidableEq

/-- `RpmError` from src/error.rs (each variant reduced to its display text
payload). -/
inductive RpmError
  | Io (msg : String)
  | Serde (msg : String)
  | Process (msg : String)
  | Daemon (msg : String)
  | Ipc (msg : String)
  | Config (msg : String)
  | ProcessNotFound (name : String)
deriving DecidableEq

/-- `Display` for `RpmError` as generated by the thiserror attributes in
src/error.rs. -/
def RpmError.message : RpmError → String
  | .Io m => "IO error: " ++ m
  | .Serde m => "Serialization error: " ++ m
  | .Process m => "Process error: " ++ m
  | .Daemon m => "Daemon error: " ++ m
  | .Ipc m => "IPC error: " ++ m
  | .Config m => "Configuration error: " ++ m
  | .ProcessNotFound n => "Process not found: " ++ n

/-- Result of one `cmd.spawn()` call, supplied by the environment; on success
the fresh child's pid (a fresh `tokio` child reports `Some pid`). -/
inductive SpawnOutcome
  | ok (pid : Nat)
  | err (msg : String)

/-- Result of one `child.try_wait()` call, supplied by the environment.  When
the child is still running, the optional `(cpu, rss-bytes)` sample is what
`get_process_usage_unix` would return (`none` = the /proc read failed, which
`update_resource_usage` ignores). -/
inductive TryWaitOutcome
  | exited (success : Bool)
  | stillRunning (usage : Option (F64 × Nat))
  | failed (msg : String)

/-- `Duration::from_secs(5)` in model milliseconds. -/
def restartCooldownMs : Nat := 5000

/-- `ManagedProcess::new` (src/process.rs:51).  `id` is the fresh UUID and
`wallNow` the `Utc::now()` stamp, both supplied by the environment. -/
def ManagedProcess.new (config : ProcessConfig) (id : String) (wallNow : String) :
    ManagedProcess :=
  { info :=
      { id := id
        name := config.name
        command := config.command
        status := .Stopped
        pid := none
        cpu_usage := .finite 0
        memory_usage := 0
        started_at := wallNow
        restarts := 0
        config := config }
    child := none
    last_restart := none
    log_buffer := [] }

/-- `ManagedProcess::start` (src/process.rs:74): no-op when already running;
otherwise spawn, and on success record pid / `Running` / `started_at` / the
handle, on failure move to `Errored` and fail with `RpmError::Process`. -/
def ManagedProcess.start (sp : SpawnOutcome) (wallNow : String)
    (p : ManagedProcess) : ManagedProcess × Except RpmError Unit :=
  if p.info.status = .Running then (p, .ok ())
  else
    match sp with
    | .ok pid =>
        ({ p with
            info := { p.info with
              pid := some pid
              status := .Running
              started_at := wallNow }
            child := some { pid := some pid } }, .ok ())
    | .err e =>
        ({ p with info := { p.info with status := .Errored } },
         .error (.Process ("Failed to start process '" ++ p.info.name ++ "': " ++ e)))

/-- `ManagedProcess::stop` (src/process.rs:116), unix path: if a child handle
is present, SIGTERM its pid (returned in the signal list), await exit, set
`Stopped` and clear pid; idempotent otherwise. -/
def ManagedProcess.stop (p : ManagedProcess) :
    ManagedProcess × List Nat × Except RpmError Unit :=
  match p.child with
  | some child =>
      let kills := match child.pid with
        | some pid => [pid]
        | none => []
      ({ p with
          child := none
          info := { p.info with status := .Stopped, pid := none } },
       kills, .ok ())
  | none => (p, [], .ok ())

/-- `ManagedProcess::restart` (src/process.rs:142): stop, sleep, bump
`restarts`, record the restart instant (`now`, monotonic ms), start. -/
def ManagedProcess.restart (sp : SpawnOutcome) (now : Nat) (wallNow : String)
    (p : ManagedProcess) : ManagedProcess × List Nat × Except RpmError Unit :=
  let (p1, kills, r) := p.stop
  match r with
  | .error e => (p1, kills, .error e)
  | .ok _ =>
      let p2 := { p1 with
        info := { p1.info with restarts := p1.info.restarts + 1 }
        last_restart := some now }
      let (p3, r3) := p2.start sp wallNow
      (p3, kills, r3)

/-- `ManagedProcess::update_resource_usage` (src/process.rs:176): refresh cpu
and memory when a pid is known and the sample succeeded; sampling failures are
ignored. -/
def ManagedProcess.update_resource_usage (usage : Option (F64 × Nat))
    (p : ManagedProcess) : ManagedProcess :=
  match p.info.pid, usage with
  | some _, some (cpu, mem) =>
      { p with info := { p.info with cpu_usage := cpu, memory_usage := mem } }
  | _, _ => p

/-- `ManagedProcess::check_status` (src/process.rs:150): non-blocking reap; on
exit set `Stopped`/`Errored` and clear pid and handle; while running refresh
usage; on a `try_wait` error set `Errored` and drop the handle (the pid field
is left as it was). -/
def ManagedProcess.check_status (tw : TryWaitOutcome) (p : ManagedProcess) :
    ManagedProcess × Except RpmError Unit :=
  match p.child with
  | none => (p, .ok ())
  | some _ =>
      match tw with
      | .exited success =>
          ({ p with
              info := { p.info with
                status := if success then .Stopped else .Errored
                pid := none }
              child := none }, .ok ())
      | .stillRunning usage => (p.update_resource_usage usage, .ok ())
      | .failed _ =>
          ({ p with
              info := { p.info with status := .Errored }
              child := none }, .ok ())

/-- `ManagedProcess::should_restart` (src/process.rs:197). -/
def ManagedProcess.should_restart (now : Nat) (p : ManagedProcess) : Bool :=
  if !p.info.config.autorestart then false
  else if p.info.status ≠ .Errored ∧ p.info.status ≠ .Stopped then false
  else
    match p.last_restart with
    | some lr => if now - lr < restartCooldownMs then false else true
    | none => true

/-! ### The process manager (src/process.rs:216) -/

/-- Association-list model of `HashMap<String, ManagedProcess>::insert`:
replace the value at an existing key, otherwise add the binding. -/
def alInsert (k : String) (v : ManagedProcess) :
    List (String × ManagedProcess) → List (String × ManagedProcess)
  | [] => [(k, v)]
  | (k', v') :: rest =>
      if k' = k then (k, v) :: rest else (k', v') :: alInsert k v rest

/-- `HashMap::get` on the association-list model. -/
def alLookup (k : String) : List (String × ManagedProcess) → Option ManagedProcess
  | [] => none
  | (k', v') :: rest => if k' = k then some v' else alLookup k rest

/-- In-place mutation of the entry at an existing key (`get_mut` then assign);
identity when the key is absent. -/
def alUpdate (k : String) (v : ManagedProcess) :
    List (String × ManagedProcess) → List (String × ManagedProcess)
  | [] => []
  | (k', v') :: rest =>
      if k' = k then (k, v) :: rest else (k', v') :: alUpdate k v rest

/-- `ProcessManager` (src/process.rs:216): the roster (a map from name to
entry, modelled as an association list in iteration order) and the persisted
`processes.json` contents the `Config` reads and writes (`none` = file
absent). -/
structure ProcessManager where
  processes : List (String × ManagedProcess)
  store : Option (List ProcessConfig)
deriving DecidableEq

/-- `ProcessManager::save_state` → `Config::save_processes`
(src/config.rs:67): write the roster's configs, whole file. -/
def ProcessManager.save_state (m : ProcessManager) : ProcessManager :=
  { m with store := some (m.processes.map (fun e => e.2.info.config)) }

/-- `Config::load_processes` (src/config.rs:90): absent file gives an empty
roster; otherwise rebuild a fresh `ManagedProcess` per stored config, keyed by
its name.  `newId` supplies the fresh UUID per name and `wallNow` the
creation stamp. -/
def load_processes (newId : String → String) (wallNow : String) :
    Option (List ProcessConfig) → List (String × ManagedProcess)
  | none => []
  | some configs =>
      configs.foldl
        (fun acc config =>
          alInsert config.name (ManagedProcess.new config (newId config.name) wallNow) acc)
        []

/-- `ProcessManager::load_state` (src/process.rs:324): replace the roster with
the loaded one (load failures would keep the old roster; the modelled store is
already parsed, so the load succeeds); always returns ok. -/
def ProcessManager.load_state (newId : String → String) (wallNow : String)
    (m : ProcessManager) : ProcessManager × Except RpmError Unit :=
  ({ m with processes := load_processes newId wallNow m.store }, .ok ())

/-- `ProcessManager::start_process` (src/process.rs:230): build a fresh entry,
spawn (propagating failure before any roster change), insert keyed by the
config's name, persist.  The middle component lists the pids SIGTERMed during
the call. -/
def ProcessManager.start_process (sp : SpawnOutcome) (id wallNow : String)
    (config : ProcessConfig) (m : ProcessManager) :
    ProcessManager × List Nat × Except RpmError String :=
  let process := ManagedProcess.new config id wallNow
  let (p1, r) := process.start sp wallNow
  match r with
  | .error e => (m, [], .error e)
  | .ok _ =>
      let m1 := { m with processes := alInsert p1.info.name p1 m.processes }
      (m1.save_state, [], .ok p1.info.id)

/-- `ProcessManager::stop_process` (src/process.rs:239). -/
def ProcessManager.stop_process (name : String) (m : ProcessManager) :
    ProcessManager × List Nat × Except RpmError Unit :=
  match alLookup name m.processes with
  | none => (m, [], .error (.ProcessNotFound name))
  | some p =>
      let (p', kills, r) := p.stop
      let m1 := { m with processes := alUpdate name p' m.processes }
      match r with
      | .error e => (m1, kills, .error e)
      | .ok _ => (m1.save_state, kills, .ok ())

/-- `ProcessManager::restart_process` (src/process.rs:249): the entry is
mutated in place even when the embedded restart fails, in which case the error
propagates before the state save. -/
def ProcessManager.restart_process (sp : SpawnOutcome) (now : Nat)
    (wallNow : String) (name : String) (m : ProcessManager) :
    ProcessManager × List Nat × Except RpmError Unit :=
  match alLookup name m.processes with
  | none => (m, [], .error (.ProcessNotFound name))
  | some p =>
      let (p', kills, r) := p.restart sp now wallNow
      let m1 := { m with processes := alUpdate name p' m.processes }
      match r with
      | .error e => (m1, kills, .error e)
      | .ok _ => (m1.save_state, kills, .ok ())

/-- `ProcessManager::delete_process` (src/process.rs:259): remove, stop the
removed entry, persist. -/
def ProcessManager.delete_process (name : String) (m : ProcessManager) :
    ProcessManager × List Nat × Except RpmError Unit :=
  match alLookup name m.processes with
  | none => (m, [], .error (.ProcessNotFound name))
  | some p =>
      let m1 := { m with
        processes := m.processes.filter (fun e => !(e.1 = name : Bool)) }
      let (_, kills, r) := p.stop
      match r with
      | .error e => (m1, kills, .error e)
      | .ok _ => (m1.save_state, kills, .ok ())

/-- `ProcessManager::list_processes` (src/process.rs:269). -/
def ProcessManager.list_processes (m : ProcessManager) : List ProcessInfo :=
  m.processes.map (fun e => e.2.info)

/-- `ProcessManager::get_process_info` (src/process.rs:273). -/
def ProcessManager.get_process_info (name : String) (m : ProcessManager) :
    Except RpmError ProcessInfo :=
  match alLookup name m.processes with
  | some p => .ok p.info
  | none => .error (.ProcessNotFound name)

/-- `ProcessManager::get_logs` (src/process.rs:280). -/
def ProcessManager.get_logs (name : String) (lines : Nat) (m : ProcessManager) :
    Except RpmError (List String) :=
  match alLookup name m.processes with
  | some p =>
      let log_count := p.log_buffer.length
      let start := if log_count > lines then log_count - lines else 0
      .ok (p.log_buffer.drop start)
  | none => .error (.ProcessNotFound name)

/-! ### The monitor pass (src/process.rs:290) -/

/-- Environment of one monitor pass: the `try_wait` outcome and spawn outcome
per entry name, the monotonic instant and the wall-clock stamp. -/
structure MonitorEnv where
  tryWait : String → TryWaitOutcome
  spawn : String → SpawnOutcome
  now : Nat
  wallNow : String

/-- The memory-cap check of the monitor pass (src/process.rs:300): with a
`max_memory` cap set, push the entry's name when the observed bytes, converted
to MiB by integer division, strictly exceed the cap. -/
def memRestartNames (name : String) (p : ManagedProcess) : List String :=
  match p.info.config.max_memory with
  | some max_memory =>
      let memory_mb := p.info.memory_usage / 1024 / 1024
      if memory_mb > max_memory then [name] else []
  | none => []

/-- First phase of `monitor_processes`: visit each entry in iteration order,
`check_status` it (a failure there would abort the pass through `?`), then
collect the names due for restart — by `should_restart` and by the memory
cap. -/
def checkEntries (env : MonitorEnv) :
    List (String × ManagedProcess) →
      List (String × ManagedProcess) × List String × Except RpmError Unit
  | [] => ([], [], .ok ())
  | (name, p) :: rest =>
      let (p', r) := p.check_status (env.tryWait name)
      match r with
      | .error e => ((name, p') :: rest, [], .error e)
      | .ok _ =>
          let here :=
            (if p'.should_restart env.now then [name] else []) ++
              memRestartNames name p'
          let (rest', names, r') := checkEntries env rest
          ((name, p') :: rest', here ++ names, r')

/-- Second phase of `monitor_processes` (src/process.rs:310): restart each
enqueued name; a restart failure is logged and the remainder of the queue is
attempted regardless. -/
def restartQueue (env : MonitorEnv) :
    List String → ProcessManager → ProcessManager × List Nat
  | [], m => (m, [])
  | name :: rest, m =>
      let (m', kills, _r) := m.restart_process (env.spawn name) env.now env.wallNow name
      let (m'', kills') := restartQueue env rest m'
      (m'', kills ++ kills')

/-- `ProcessManager::monitor_processes` (src/process.rs:290). -/
def ProcessManager.monitor_processes (env : MonitorEnv) (m : ProcessManager) :
    ProcessManager × List Nat × Except RpmError Unit :=
  let (ps, to_restart, r) := checkEntries env m.processes
  let m1 := { m with processes := ps }
  match r with
  | .error e => (m1, [], .error e)
  | .ok _ =>
      let (m2, kills) := restartQueue env to_restart m1
      (m2, kills, .ok ())

/-! ### IPC request dispatch (src/ipc.rs) -/

/-- `IpcRequest` from src/ipc.rs. -/
inductive IpcRequest
  | StartProcess (config : ProcessConfig)
  | StopProcess (name : String)
  | RestartProcess (name : String)
  | DeleteProcess (name : String)
  | ListProcesses
  | GetProcessInfo (name : String)
  | GetLogs (name : String) (lines : Nat) (follow : Bool)
  | Monitor
  | KillDaemon
  | ReloadProcess (name : String)
  | SaveProcesses
  | ResurrectProcesses
deriving DecidableEq

/-- `IpcResponse` from src/ipc.rs. -/
inductive IpcResponse
  | Success (msg : String)
  | ProcessList (processes : List ProcessInfo)
  | ProcessInfo (info : RPM.ProcessInfo)
  | Logs (lines : List String)
  | Error (msg : String)
deriving DecidableEq

/-- Environment of one `handle_request` call: outcome of the spawn the request
may perform, the fresh UUID and stamps, and the UUID source for a resurrect. -/
structure HandlerEnv where
  spawn : SpawnOutcome
  freshId : String
  wallNow : String
  now : Nat
  newId : String → String

/-- `handle_request` (src/ipc.rs:169): dispatch one request against the
manager, converting typed results into `Success`/`Error` responses.  The
middle component lists the pids SIGTERMed while handling. -/
def handle_request (env : HandlerEnv) (request : IpcRequest)
    (m : ProcessManager) : ProcessManager × List Nat × IpcResponse :=
  match request with
  | .StartProcess config =>
      match m.start_process env.spawn env.freshId env.wallNow config with
      | (m', kills, .ok id) =>
          (m', kills, .Success ("Process started with id: " ++ id))
      | (m', kills, .error e) => (m', kills, .Error e.message)
  | .StopProcess name =>
      match m.stop_process name with
      | (m', kills, .ok _) =>
          (m', kills, .Success ("Process '" ++ name ++ "' stopped"))
      | (m', kills, .error e) => (m', kills, .Error e.message)
  | .RestartProcess name =>
      match m.restart_process env.spawn env.now env.wallNow name with
      | (m', kills, .ok _) =>
          (m', kills, .Success ("Process '" ++ name ++ "' restarted"))
      | (m', kills, .error e) => (m', kills, .Error e.message)
  | .DeleteProcess name =>
      match m.delete_process name with
      | (m', kills, .ok _) =>
          (m', kills, .Success ("Process '" ++ name ++ "' deleted"))
      | (m', kills, .error e) => (m', kills, .Error e.message)
  | .ListProcesses => (m, [], .ProcessList m.list_processes)
  | .GetProcessInfo name =>
      match m.get_process_info name with
      | .ok info => (m, [], .ProcessInfo info)
      | .error e => (m, [], .Error e.message)
  | .GetLogs name lines _follow =>
      match m.get_logs name lines with
      | .ok logs => (m, [], .Logs logs)
      | .error e => (m, [], .Error e.message)
  | .Monitor => (m, [], .Success "Monitor not implemented in this context")
  | .KillDaemon => (m, [], .Success "Daemon shutdown requested")
  | .ReloadProcess name =>
      match m.restart_process env.spawn env.now env.wallNow name with
      | (m', kills, .ok _) =>
          (m', kills, .Success ("Process '" ++ name ++ "' reloaded"))
      | (m', kills, .error e) => (m', kills, .Error e.message)
  | .SaveProcesses => (m, [], .Success "Processes saved")
  | .ResurrectProcesses =>
      match m.load_state env.newId env.wallNow with
      | (m', .ok _) => (m', [], .Success "Processes resurrected")
      | (m', .error e) => (m', [], .Error e.message)

/-! ### The IPC wire codec (serde_json over the types of src/ipc.rs)

serde_json maps a Rust value to a JSON document; the textual layer is a
faithful isomorphism on these documents (shortest-form numbers reparse to the
same double, strings are escaped reversibly), so the codec is modelled at the
document level.  Enums use serde's externally tagged form: a unit variant is
its name as a string, any other variant a one-entry object.  A non-finite
`f64` is written as `null` (serde_json's behaviour), and reading `null` where
an `f64` is expected is a decode error. -/

/-- A JSON document. -/
inductive Json
  | null
  | bool (b : Bool)
  | num (q : Rat)
  | str (s : String)
  | arr (elems : List Json)
  | obj (fields : List (String × Json))

def encodeNat (n : Nat) : Json := .num n

def encodeBool (b : Bool) : Json := .bool b

def encodeString (s : String) : Json := .str s

/-- serde `Option`: `None` is `null`, `Some x` is the encoding of `x`. -/
def encodeOption (f : α → Json) : Option α → Json
  | none => .null
  | some a => f a

/-- serde_json `f64`: a finite double as a number, anything else as `null`. -/
def encodeF64 : F64 → Json
  | .finite q => .num q
  | _ => .null

def encodeProcessStatus : ProcessStatus → Json
  | .Running => .str "Running"
  | .Stopped => .str "Stopped"
  | .Errored => .str "Errored"
  | .Restarting => .str "Restarting"

/-- A `(String, String)` tuple is a two-element array. -/
def encodeEnvPair (kv : String × String) : Json := .arr [.str kv.1, .str kv.2]

def encodeProcessConfig (c : ProcessConfig) : Json :=
  .obj [("name", .str c.name),
        ("command", .str c.command),
        ("cwd", encodeOption encodeString c.cwd),
        ("instances", encodeNat c.instances),
        ("autorestart", .bool c.autorestart),
        ("max_memory", encodeOption encodeNat c.max_memory),
        ("env", .arr (c.env.map encodeEnvPair))]

def encodeProcessInfo (i : ProcessInfo) : Json :=
  .obj [("id", .str i.id),
        ("name", .str i.name),
        ("command", .str i.command),
        ("status", encodeProcessStatus i.status),
        ("pid", encodeOption encodeNat i.pid),
        ("cpu_usage", encodeF64 i.cpu_usage),
        ("memory_usage", encodeNat i.memory_usage),
        ("started_at", .str i.started_at),
        ("restarts", encodeNat i.restarts),
        ("config", encodeProcessConfig i.config)]

def encodeIpcRequest : IpcRequest → Json
  | .StartProcess config => .obj [("StartProcess", encodeProcessConfig config)]
  | .StopProcess name => .obj [("StopProcess", .str name)]
  | .RestartProcess name => .obj [("RestartProcess", .str name)]
  | .DeleteProcess name => .obj [("DeleteProcess", .str name)]
  | .ListProcesses => .str "ListProcesses"
  | .GetProcessInfo name => .obj [("GetProcessInfo", .str name)]
  | .GetLogs name lines follow =>
      .obj [("GetLogs", .obj [("name", .str name),
                              ("lines", encodeNat lines),
                              ("follow", .bool follow)])]
  | .Monitor => .str "Monitor"
  | .KillDaemon => .str "KillDaemon"
  | .ReloadProcess name => .obj [("ReloadProcess", .str name)]
  | .SaveProcesses => .str "SaveProcesses"
  | .ResurrectProcesses => .str "ResurrectProcesses"

def encodeIpcResponse : IpcResponse → Json
  | .Success msg => .obj [("Success", .str msg)]
  | .ProcessList ps => .obj [("ProcessList", .arr (ps.map encodeProcessInfo))]
  | .ProcessInfo info => .obj [("ProcessInfo", encodeProcessInfo info)]
  | .Logs lines => .obj [("Logs", .arr (lines.map encodeString))]
  | .Error msg => .obj [("Error", .str msg)]

def decodeString : Json → Except String String
  | .str s => .ok s
  | _ => .error "expected a string"

def decodeBool : Json → Except String Bool
  | .bool b => .ok b
  | _ => .error "expected a boolean"

/-- An unsigned integer field: a number with denominator 1 and no sign. -/
def decodeNat : Json → Except String Nat
  | .num q => if q.den = 1 ∧ 0 ≤ q.num then .ok q.num.toNat
              else .error "expected an unsigned integer"
  | _ => .error "expected an unsigned integer"

def decodeOption (f : Json → Except String α) : Json → Except String (Option α)
  | .null => .ok none
  | j => (f j).map some

/-- An `f64` field must be a JSON number; in particular the `null` that
serde_json wrote for a non-finite double does not decode. -/
def decodeF64 : Json → Except String F64
  | .num q => .ok (.finite q)
  | _ => .error "invalid type: expected f64"

def decodeProcessStatus : Json → Except String ProcessStatus
  | .str "Running" => .ok .Running
  | .str "Stopped" => .ok .Stopped
  | .str "Errored" => .ok .Errored
  | .str "Restarting" => .ok .Restarting
  | _ => .error "unknown ProcessStatus"

def decodeEnvPair : Json → Except String (String × String)
  | .arr [k, v] => do
      let k' ← decodeString k
      let v' ← decodeString v
      .ok (k', v')
  | _ => .error "expected a pair"

def decodeList (f : Json → Except String α) : Json → Except String (List α)
  | .arr elems => elems.mapM f
  | _ => .error "expected an array"

def decodeProcessConfig : Json → Except String ProcessConfig
  | .obj [("name", j1), ("command", j2), ("cwd", j3), ("instances", j4),
          ("autorestart", j5), ("max_memory", j6), ("env", j7)] => do
      let name ← decodeString j1
      let command ← decodeString j2
      let cwd ← decodeOption decodeString j3
      let instances ← decodeNat j4
      let autorestart ← decodeBool j5
      let max_memory ← decodeOption decodeNat j6
      let env ← decodeList decodeEnvPair j7
      .ok { name, command, cwd, instances, autorestart, max_memory, env }
  | _ => .error "expected a ProcessConfig"

def decodeProcessInfo : Json → Except String ProcessInfo
  | .obj [("id", j1), ("name", j2), ("command", j3), ("status", j4),
          ("pid", j5), ("cpu_usage", j6), ("memory_usage", j7),
          ("started_at", j8), ("restarts", j9), ("config", j10)] => do
      let id ← decodeString j1
      let name ← decodeString j2
      let command ← decodeString j3
      let status ← decodeProcessStatus j4
      let pid ← decodeOption decodeNat j5
      let cpu_usage ← decodeF64 j6
      let memory_usage ← decodeNat j7
      let started_at ← decodeString j8
      let restarts ← decodeNat j9
      let config ← decodeProcessConfig j10
      .ok { id, name, command, status, pid, cpu_usage, memory_usage,
            started_at, restarts, config }
  | _ => .error "expected a ProcessInfo"

def decodeIpcRequest : Json → Except String IpcRequest
  | .str "ListProcesses" => .ok .ListProcesses
  | .str "Monitor" => .ok .Monitor
  | .str "KillDaemon" => .ok .KillDaemon
  | .str "SaveProcesses" => .ok .SaveProcesses
  | .str "ResurrectProcesses" => .ok .ResurrectProcesses
  | .obj [("StartProcess", j)] => (decodeProcessConfig j).map .StartProcess
  | .obj [("StopProcess", j)] => (decodeString j).map .StopProcess
  | .obj [("RestartProcess", j)] => (decodeString j).map .RestartProcess
  | .obj [("DeleteProcess", j)] => (decodeString j).map .DeleteProcess
  | .obj [("GetProcessInfo", j)] => (decodeString j).map .GetProcessInfo
  | .obj [("GetLogs", .obj [("name", j1), ("lines", j2), ("follow", j3)])] => do
      let name ← decodeString j1
      let lines ← decodeNat j2
      let follow ← decodeBool j3
      .ok (.GetLogs name lines follow)
  | .obj [("ReloadProcess", j)] => (decodeString j).map .ReloadProcess
  | _ => .error "unknown IpcRequest"

def decodeIpcResponse : Json → Except String IpcResponse
  | .obj [("Success", j)] => (decodeString j).map .Success
  | .obj [("ProcessList", j)] => (decodeList decodeProcessInfo j).map .ProcessList
  | .obj [("ProcessInfo", j)] => (decodeProcessInfo j).map .ProcessInfo
  | .obj [("Logs", j)] => (decodeList decodeString j).map .Logs
  | .obj [("Error", j)] => (decodeString j).map .Error
  | _ => .error "unknown IpcResponse"

/-- All `cpu_usage` floats carried by a response are finite. -/
def IpcResponse.floatsFinite : IpcResponse → Bool
  | .ProcessList ps => ps.all (fun i => match i.cpu_usage with
      | .finite _ => true
      | _ => false)
  | .ProcessInfo info => match info.cpu_usage with
      | .finite _ => true
      | _ => false
  | _ => true

/-! ### Invariant about status, handle and pid, and concrete sample values -/

/-- The inductive invariant relating `status`, the child handle and `pid`:
running exactly when a handle is held, a held handle carries the recorded pid
(which is then set), and a stopped entry has no pid.  It is established by
`ManagedProcess::new` and preserved by every operation. -/
def statusHandleInv (p : ManagedProcess) : Prop :=
  (p.info.status = .Running ↔ p.child.isSome) ∧
  (∀ c, p.child = some c → c.pid = p.info.pid ∧ p.info.pid.isSome) ∧
  (p.info.status = .Stopped → p.info.pid = none)

/-- A sample config named `a`. -/
def cfgA : ProcessConfig :=
  { name := "a", command := "run", cwd := none, instances := 1,
    autorestart := true, max_memory := none, env := [] }

/-- A sample entry for `cfgA`, running with pid 7. -/
def oldA : ManagedProcess :=
  { info := { id := "id-old", name := "a", command := "run",
              status := .Running, pid := some 7, cpu_usage := .finite 0,
              memory_usage := 0, started_at := "t0", restarts := 0,
              config := cfgA }
    child := some { pid := some 7 }
    last_restart := none
    log_buffer := [] }

/-- A manager whose roster holds the running `oldA` and whose state file is
absent. -/
def m0 : ProcessManager := { processes := [("a", oldA)], store := none }

/-- A manager with an empty roster whose state file holds `[cfgA]`. -/
def mStore : ProcessManager := { processes := [], store := some [cfgA] }

/-- A sample handler environment. -/
def env0 : HandlerEnv :=
  { spawn := .ok 9, freshId := "id-new", wallNow := "t1", now := 0,
    newId := fun _ => "id-res" }

/-- A sample snapshot whose `cpu_usage` is NaN. -/
def infoNan : ProcessInfo :=
  { id := "i", name := "a", command := "run", status := .Running,
    pid := some 7, cpu_usage := .nan, memory_usage := 0, started_at := "t0",
    restarts := 0, config := cfgA }

/-- A sample config with a 10 MiB memory cap. -/
def cfgMem : ProcessConfig :=
  { name := "mem", command := "run", cwd := none, instances := 1,
    autorestart := false, max_memory := some 10, env := [] }

/-- A sample entry for `cfgMem` whose observed memory is exactly 10 MiB. -/
def pMem : ManagedProcess :=
  { info := { id := "id-mem", name := "mem", command := "run",
              status := .Running, pid := some 8, cpu_usage := .finite 0,
              memory_usage := 10 * 1024 * 1024, started_at := "t0",
              restarts := 0, config := cfgMem }
    child := some { pid := some 8 }
    last_restart := none
    log_buffer := [] }

/-- A sample errored entry with auto-restart on and no prior restart. -/
def pErr : ManagedProcess :=
  { info := { id := "id-err", name := "a", command := "run",
              status := .Errored, pid := none, cpu_usage := .finite 0,
              memory_usage := 0, started_at := "t0", restarts := 0,
              config := cfgA }
    child := none
    last_restart := none
    log_buffer := [] }

/-! ### Basic lemmas shared across the claims -/

theorem check_status_ok (p : ManagedProcess) (tw : TryWaitOutcome) :
    (p.check_status tw).2 = .ok () := by
  cases h : p.child with
  | none => simp [ManagedProcess.check_status, h]
  | some c => cases tw <;> simp [ManagedProcess.check_status, h]

theorem checkEntries_cons (env : MonitorEnv) (name : String)
    (p : ManagedProcess) (rest : List (String × ManagedProcess)) :
    checkEntries env ((name, p) :: rest) =
      ((name, (p.check_status (env.tryWait name)).1) :: (checkEntries env rest).1,
       ((if ((p.check_status (env.tryWait name)).1).should_restart env.now
          then [name] else []) ++
          memRestartNames name (p.check_status (env.tryWait name)).1) ++
         (checkEntries env rest).2.1,
       (checkEntries env rest).2.2) := by
  have hok := check_status_ok p (env.tryWait name)
  rcases hcs : p.check_status (env.tryWait name) with ⟨p', r⟩
  rw [hcs] at hok
  simp only at hok
  subst hok
  simp [checkEntries, hcs]

theorem mem_alInsert {e : String × ManagedProcess} {k : String}
    {v : ManagedProcess} {l : List (String × ManagedProcess)}
    (h : e ∈ alInsert k v l) : e = (k, v) ∨ e ∈ l := by
  induction l with
  | nil => simpa [alInsert] using h
  | cons hd tl ih =>
      rcases hd with ⟨k', v'⟩
      simp only [alInsert] at h
      by_cases hk : k' = k
      · rw [if_pos hk] at h
        rcases List.mem_cons.mp h with h | h
        · exact Or.inl h
        · exact Or.inr (List.mem_cons_of_mem _ h)
      · rw [if_neg hk] at h
        rcases List.mem_cons.mp h with h | h
        · exact Or.inr (h ▸ List.mem_cons_self _ _)
        · rcases ih h with h' | h'
          · exact Or.inl h'
          · exact Or.inr (List.mem_cons_of_mem _ h')

theorem mem_alInsert_nodup {e : String × ManagedProcess} {k : String}
    {v : ManagedProcess} {l : List (String × ManagedProcess)}
    (hnd : (l.map Prod.fst).Nodup) (h : e ∈ alInsert k v l) :
    e = (k, v) ∨ (e ∈ l ∧ e.1 ≠ k) := by
  induction l with
  | nil => simpa [alInsert] using h
  | cons hd tl ih =>
      rcases hd with ⟨k', v'⟩
      simp only [List.map_cons, List.nodup_cons] at hnd
      simp only [alInsert] at h
      by_cases hk : k' = k
      · rw [if_pos hk] at h
        rcases List.mem_cons.mp h with h | h
        · exact Or.inl h
        · refine Or.inr ⟨List.mem_cons_of_mem _ h, ?_⟩
          intro habs
          apply hnd.1
          rw [hk, ← habs]
          exact List.mem_map_of_mem Prod.fst h
      · rw [if_neg hk] at h
        rcases List.mem_cons.mp h with h | h
        · exact Or.inr ⟨h ▸ List.mem_cons_self _ _, by simp [h, hk]⟩
        · rcases ih hnd.2 h with h' | h'
          · exact Or.inl h'
          · exact Or.inr ⟨List.mem_cons_of_mem _ h'.1, h'.2⟩

theorem alLookup_alInsert_self (k : String) (v : ManagedProcess)
    (l : List (String × ManagedProcess)) :
    alLookup k (alInsert k v l) = some v := by
  induction l with
  | nil => simp [alInsert, alLookup]
  | cons hd tl ih =>
      rcases hd with ⟨k', v'⟩
      by_cases hk : k' = k
      · simp [alInsert, alLookup, hk]
      · simp [alInsert, alLookup, hk, ih]

theorem alInsert_of_not_mem_keys {k : String} {v : ManagedProcess}
    {l : List (String × ManagedProcess)} (h : k ∉ l.map Prod.fst) :
    alInsert k v l = l ++ [(k, v)] := by
  induction l with
  | nil => simp [alInsert]
  | cons hd tl ih =>
      rcases hd with ⟨k', v'⟩
      simp only [List.map_cons, List.mem_cons] at h
      push_neg at h
      have hne : ¬k' = k := fun habs => h.1 habs.symm
      simp [alInsert, hne, ih h.2]

theorem mem_load_processes {e : String × ManagedProcess}
    {newId : String → String} {wallNow : String}
    {configs : List ProcessConfig}
    (h : e ∈ load_processes newId wallNow (some configs)) :
    ∃ config ∈ configs,
      e = (config.name, ManagedProcess.new config (newId config.name) wallNow) := by
  have main : ∀ (cs : List ProcessConfig) (acc : List (String × ManagedProcess)),
      e ∈ cs.foldl
          (fun acc config =>
            alInsert config.name
              (ManagedProcess.new config (newId config.name) wallNow) acc) acc →
      e ∈ acc ∨ ∃ config ∈ cs,
        e = (config.name, ManagedProcess.new config (newId config.name) wallNow) := by
    intro cs
    induction cs with
    | nil => intro acc h; exact Or.inl h
    | cons c rest ih =>
        intro acc h
        rcases ih _ h with h' | h'
        · rcases mem_alInsert h' with h'' | h''
          · exact Or.inr ⟨c, List.mem_cons_self _ _, h''⟩
          · exact Or.inl h''
        · rcases h' with ⟨config, hc, he⟩
          exact Or.inr ⟨config, List.mem_cons_of_mem _ hc, he⟩
  rcases main configs [] h with h' | h'
  · simp at h'
  · exact h'

theorem restartQueue_foldl (env : MonitorEnv) (names : List String) :
    ∀ m : ProcessManager,
      (restartQueue env names m).1 =
        names.foldl
          (fun acc name =>
            (acc.restart_process (env.spawn name) env.now env.wallNow name).1) m := by
  induction names with
  | nil => intro m; rfl
  | cons name rest ih =>
      intro m
      rcases hr : m.restart_process (env.spawn name) env.now env.wallNow name
        with ⟨m', kills, r⟩
      simp [restartQueue, hr, ih, List.foldl_cons]

theorem checkEntries_visits_all (env : MonitorEnv)
    (l : List (String × ManagedProcess)) :
    (checkEntries env l).1 =
      l.map (fun e => (e.1, (e.2.check_status (env.tryWait e.1)).1)) ∧
    (checkEntries env l).2.2 = .ok () := by
  induction l with
  | nil => exact ⟨rfl, rfl⟩
  | cons hd tl ih =>
      rcases hd with ⟨name, p⟩
      rw [checkEntries_cons]
      exact ⟨by simp [ih.1], ih.2⟩

/-! ### Claim C10 -/

/-- C10: when the spawn fails, `start_process` returns a `Process` error and
is atomic in its failure: no entry is inserted for the config's name, no state
save is performed, and no signal is sent — the returned manager (roster and
persisted store) is exactly the one passed in. -/
theorem C10_start_process_spawn_failure_atomic :
    ∀ (m : ProcessManager) (cfg : ProcessConfig) (id wallNow msg : String),
      m.start_process (.err msg) id wallNow cfg =
        (m, [],
         .error (.Process
           ("Failed to start process '" ++ cfg.name ++ "': " ++ msg))) := by
  intro m cfg id wallNow msg
  rfl

/-! ### Claim C5 -/

/-- C5 (code bug): the `SaveProcesses` arm of `handle_request` answers
`Success "Processes saved"` without calling the manager's save operation — the
manager, its roster and its persisted store are returned untouched.  At the
concrete state `m0` (roster holding `oldA`, state file absent) the persisted
list therefore differs from the roster's configs even after the `Success`
response, contradicting the claim. -/
theorem C5_save_processes_is_noop :
    (∀ (env : HandlerEnv) (m : ProcessManager),
        handle_request env .SaveProcesses m = (m, [], .Success "Processes saved")) ∧
    (handle_request env0 .SaveProcesses m0 = (m0, [], .Success "Processes saved") ∧
      m0.store = none ∧
      m0.processes.map (fun e => e.2.info.config) = [cfgA]) :=
  ⟨fun _ _ => rfl, rfl, rfl, rfl⟩

/-! ### Claim C2 -/

/-- C2: a monitor pass never aborts.  `check_status` returns ok on every
outcome, so the first phase visits every entry (the resulting roster is the
entrywise `check_status` image and its result is ok), `monitor_processes`
itself always returns ok, and the restart phase is a total fold over the whole
queue: a failing restart is logged and the remainder is attempted
regardless. -/
theorem C2_monitor_pass_never_aborts :
    (∀ (p : ManagedProcess) (tw : TryWaitOutcome), (p.check_status tw).2 = .ok ()) ∧
    (∀ (env : MonitorEnv) (l : List (String × ManagedProcess)),
        (checkEntries env l).1 =
          l.map (fun e => (e.1, (e.2.check_status (env.tryWait e.1)).1)) ∧
        (checkEntries env l).2.2 = .ok ()) ∧
    (∀ (env : MonitorEnv) (m : ProcessManager),
        (m.monitor_processes env).2.2 = .ok ()) ∧
    (∀ (env : MonitorEnv) (names : List String) (m : ProcessManager),
        (restartQueue env names m).1 =
          names.foldl
            (fun acc name =>
              (acc.restart_process (env.spawn name) env.now env.wallNow name).1)
            m) := by
  refine ⟨check_status_ok, checkEntries_visits_all, ?_,
    fun env names m => restartQueue_foldl env names m⟩
  intro env m
  rcases hce : checkEntries env m.processes with ⟨ps, names, r⟩
  have hok : r = .ok () := by
    have h2 := (checkEntries_visits_all env m.processes).2
    rw [hce] at h2
    exact h2
  subst hok
  simp [ProcessManager.monitor_processes, hce]

/-! ### Claim C9 -/

/-- C9: with `max_memory = some cap` (MiB), the monitor pass enqueues the
entry for a memory-cap restart exactly when the observed memory, converted to
MiB by the code's integer division, strictly exceeds the cap; a value exactly
equal to the cap triggers nothing.  The second conjunct ties the enqueue site
to the pass: on a roster `[(name, p)]` the queue is the `should_restart`
contribution followed by exactly this memory-cap contribution. -/
theorem C9_memory_cap_strict :
    (∀ (name : String) (p : ManagedProcess) (cap : Nat),
        p.info.config.max_memory = some cap →
        ((memRestartNames name p = [name] ↔
            cap < p.info.memory_usage / 1024 / 1024) ∧
         (p.info.memory_usage / 1024 / 1024 = cap →
            memRestartNames name p = []))) ∧
    (∀ (env : MonitorEnv) (name : String) (p : ManagedProcess),
        (checkEntries env [(name, p)]).2.1 =
          (if ((p.check_status (env.tryWait name)).1).should_restart env.now
            then [name] else []) ++
            memRestartNames name (p.check_status (env.tryWait name)).1) := by
  constructor
  · intro name p cap hcap
    constructor
    · unfold memRestartNames
      rw [hcap]
      by_cases hgt : cap < p.info.memory_usage / 1024 / 1024
      · simp [hgt]
      · simp [hgt]
    · intro heq
      unfold memRestartNames
      rw [hcap, heq]
      simp
  · intro env name p
    rw [checkEntries_cons]
    simp [checkEntries]

/-- Witness for C9 at the exact-cap boundary: `pMem` observes exactly 10 MiB
against a 10 MiB cap and is not enqueued. -/
theorem C9_memory_cap_strict_witness :
    pMem.info.config.max_memory = some 10 ∧
    pMem.info.memory_usage / 1024 / 1024 = 10 ∧
    memRestartNames "mem" pMem = [] :=
  ⟨rfl, by decide,
    (C9_memory_cap_strict.1 "mem" pMem 10 rfl).2 (by decide)⟩

/-! ### Claim C6 -/

theorem stop_ok (p : ManagedProcess) : (p.stop).2.2 = .ok () := by
  cases h : p.child <;> simp [ManagedProcess.stop, h]

theorem restart_sets_last_restart (p : ManagedProcess) (sp : SpawnOutcome)
    (now0 : Nat) (wallNow : String) :
    ((p.restart sp now0 wallNow).1).last_restart = some now0 := by
  rcases hstop : p.stop with ⟨p1, kills, r⟩
  have hr : r = .ok () := by
    have h := stop_ok p
    rw [hstop] at h
    exact h
  subst hr
  simp only [ManagedProcess.restart, hstop]
  unfold ManagedProcess.start
  by_cases hrun : p1.info.status = ProcessStatus.Running
  · simp [hrun]
  · cases sp <;> simp [hrun]

theorem should_restart_of_recent {p : ManagedProcess} {lr now : Nat}
    (h : p.last_restart = some lr) (hlt : now - lr < restartCooldownMs) :
    p.should_restart now = false := by
  unfold ManagedProcess.should_restart
  rw [h]
  cases hauto : p.info.config.autorestart
  · simp
  · by_cases hst : p.info.status ≠ .Errored ∧ p.info.status ≠ .Stopped
    · simp [hst]
    · simp [hst, hlt]

/-- C6: `should_restart` returns true iff `autorestart` is set, the status is
`Errored` or `Stopped`, and any recorded restart instant lies at least the
5-second cool-down in the past; and after a `restart` recorded its instant,
any call strictly within 5 seconds of that instant returns false. -/
theorem C6_should_restart_iff :
    (∀ (p : ManagedProcess) (now : Nat),
        p.should_restart now = true ↔
          (p.info.config.autorestart = true ∧
           (p.info.status = .Errored ∨ p.info.status = .Stopped) ∧
           ∀ lr, p.last_restart = some lr → ¬(now - lr < restartCooldownMs))) ∧
    (∀ (p : ManagedProcess) (sp : SpawnOutcome) (now0 : Nat)
        (wallNow : String) (now : Nat),
        now - now0 < restartCooldownMs →
        ((p.restart sp now0 wallNow).1).should_restart now = false) := by
  constructor
  · intro p now
    unfold ManagedProcess.should_restart
    cases hauto : p.info.config.autorestart
    · simp
    · by_cases hst : p.info.status ≠ .Errored ∧ p.info.status ≠ .Stopped
      · constructor
        · intro h
          simp [hst] at h
        · rintro ⟨-, hor, -⟩
          rcases hor with h | h
          · exact absurd h hst.1
          · exact absurd h hst.2
      · have hor : p.info.status = .Errored ∨ p.info.status = .Stopped := by
          rcases not_and_or.mp hst with h | h
          · exact Or.inl (not_not.mp h)
          · exact Or.inr (not_not.mp h)
        rcases hlast : p.last_restart with _ | lr
        · constructor
          · intro _
            exact ⟨by simp, hor, by simp⟩
          · intro _
            simp [hst]
        · by_cases hlt : now - lr < restartCooldownMs
          · constructor
            · intro h
              simp [hst, hlt] at h
            · rintro ⟨-, -, hall⟩
              exact absurd hlt (hall lr rfl)
          · constructor
            · intro _
              refine ⟨by simp, hor, ?_⟩
              intro lr' hlr'
              injection hlr' with h
              subst h
              exact hlt
            · intro _
              simp [hst, hlt]
  · intro p sp now0 wallNow now hlt
    exact should_restart_of_recent (restart_sets_last_restart p sp now0 wallNow) hlt

/-- Witness for C6: `pErr` (errored, auto-restart on, no prior restart) is due
for a restart; after a restart recorded at instant 100, a query at instant 200
(within the 5000 ms cool-down) says no. -/
theorem C6_should_restart_iff_witness :
    pErr.should_restart 0 = true ∧
    200 - 100 < restartCooldownMs ∧
    ((pErr.restart (.ok 3) 100 "t1").1).should_restart 200 = false :=
  ⟨(C6_should_restart_iff.1 pErr 0).mpr
      ⟨rfl, Or.inl rfl, fun lr h => by simp [pErr] at h⟩,
   by decide,
   C6_should_restart_iff.2 pErr (.ok 3) 100 "t1" 200 (by decide)⟩

/-! ### Claim C3 -/

theorem inv_new (cfg : ProcessConfig) (id wallNow : String) :
    statusHandleInv (ManagedProcess.new cfg id wallNow) := by
  simp [statusHandleInv, ManagedProcess.new]

theorem inv_start (p : ManagedProcess) (sp : SpawnOutcome) (wallNow : String)
    (h : statusHandleInv p) : statusHandleInv (p.start sp wallNow).1 := by
  obtain ⟨⟨id, name, cmd, status, pid, cpu, mem, st, rst, config⟩,
    child, lastR, logs⟩ := p
  unfold statusHandleInv ManagedProcess.start at *
  cases sp <;> cases status <;> cases child <;> simp_all

theorem inv_stop (p : ManagedProcess) (h : statusHandleInv p) :
    statusHandleInv (p.stop).1 := by
  obtain ⟨⟨id, name, cmd, status, pid, cpu, mem, st, rst, config⟩,
    child, lastR, logs⟩ := p
  unfold statusHandleInv ManagedProcess.stop at *
  cases child <;> simp_all

theorem inv_check_status (p : ManagedProcess) (tw : TryWaitOutcome)
    (h : statusHandleInv p) : statusHandleInv (p.check_status tw).1 := by
  obtain ⟨⟨id, name, cmd, status, pid, cpu, mem, st, rst, config⟩,
    child, lastR, logs⟩ := p
  unfold statusHandleInv ManagedProcess.check_status
    ManagedProcess.update_resource_usage at *
  cases child with
  | none => simpa using h
  | some c =>
      cases tw with
      | exited success => cases success <;> simp_all
      | stillRunning usage =>
          cases pid <;> rcases usage with _ | ⟨cpu', mem'⟩ <;> simp_all
      | failed msg => simp_all

theorem inv_restart (p : ManagedProcess) (sp : SpawnOutcome) (now0 : Nat)
    (wallNow : String) (h : statusHandleInv p) :
    statusHandleInv (p.restart sp now0 wallNow).1 := by
  rcases hstop : p.stop with ⟨p1, kills, r⟩
  have h1 : statusHandleInv p1 := by
    have hh := inv_stop p h
    rw [hstop] at hh
    exact hh
  have hr : r = .ok () := by
    have hh := stop_ok p
    rw [hstop] at hh
    exact hh
  subst hr
  simp only [ManagedProcess.restart, hstop]
  rcases hst2 :
      ({ p1 with
          info := { p1.info with restarts := p1.info.restarts + 1 }
          last_restart := some now0 } : ManagedProcess).start sp wallNow
    with ⟨p3, r3⟩
  have h3 := inv_start
    ({ p1 with
        info := { p1.info with restarts := p1.info.restarts + 1 }
        last_restart := some now0 }) sp wallNow h1
  rw [hst2] at h3
  simpa [hst2] using h3

/-- C3 (corrected): `statusHandleInv` — running exactly when a handle is held,
a held handle carries the recorded pid which is then set, and a stopped entry
has cleared pid — is established by `new` and preserved by `start`, `stop`,
`restart` and `check_status`; it yields the equivalence
`status == Running ↔ (handle present ∧ pid set)` and the full clearing on
`Stopped`.  (The original claim's clearing of `pid` on every transition to
`Errored` is false: see the counterexample.) -/
theorem C3_status_handle_invariant :
    (∀ (cfg : ProcessConfig) (id wallNow : String),
        statusHandleInv (ManagedProcess.new cfg id wallNow)) ∧
    (∀ (p : ManagedProcess) (sp : SpawnOutcome) (wallNow : String),
        statusHandleInv p → statusHandleInv (p.start sp wallNow).1) ∧
    (∀ p : ManagedProcess, statusHandleInv p → statusHandleInv (p.stop).1) ∧
    (∀ (p : ManagedProcess) (sp : SpawnOutcome) (now0 : Nat) (wallNow : String),
        statusHandleInv p → statusHandleInv (p.restart sp now0 wallNow).1) ∧
    (∀ (p : ManagedProcess) (tw : TryWaitOutcome),
        statusHandleInv p → statusHandleInv (p.check_status tw).1) ∧
    (∀ p : ManagedProcess, statusHandleInv p →
        ((p.info.status = .Running ↔ (p.child.isSome ∧ p.info.pid.isSome)) ∧
         (p.info.status = .Stopped → p.child = none ∧ p.info.pid = none))) := by
  refine ⟨inv_new, inv_start, inv_stop, inv_restart, inv_check_status, ?_⟩
  intro p h
  constructor
  · constructor
    · intro hrun
      have hc := h.1.mp hrun
      refine ⟨hc, ?_⟩
      rcases Option.isSome_iff_exists.mp hc with ⟨c, hc'⟩
      exact (h.2.1 c hc').2
    · intro hcp
      exact h.1.mpr hcp.1
  · intro hstopped
    refine ⟨?_, h.2.2 hstopped⟩
    have : ¬p.child.isSome := fun hc =>
      (by simp [hstopped] at * : ¬p.info.status = .Running) (h.1.mpr hc)
    exact Option.not_isSome_iff_eq_none.mp this

/-- C3 counterexample: on a `try_wait` error, `check_status` moves the running
`oldA` (pid 7) to `Errored` yet leaves `pid = Some 7`, contradicting "if it
becomes `Stopped` or `Errored`, both are absent". -/
theorem C3_counterexample :
    (oldA.check_status (.failed "io")).1.info.status = .Errored ∧
    (oldA.check_status (.failed "io")).1.info.pid = some 7 :=
  ⟨rfl, rfl⟩

/-- Witness for C3: the invariant holds of the concrete running entry `oldA`
and is carried through the `check_status` transition that errors. -/
theorem C3_status_handle_invariant_witness :
    statusHandleInv ((oldA.check_status (.failed "io")).1) :=
  C3_status_handle_invariant.2.2.2.2.1 oldA (.failed "io")
    (by simp [statusHandleInv, oldA])

/-! ### Claim C1 -/

/-- C1 (corrected): starting a config whose name already has a roster entry
succeeds, removes the old entry by replacement — its id no longer appears in
`list_processes` — and installs the fresh running entry, but the call stops
nothing: the signal list is empty, so the old child is not terminated.  The
hypotheses say the roster keys are unique (a `HashMap` guarantee), the name is
taken by `old`, the old id occurs only at that name, and the fresh UUID is
distinct from the old id. -/
theorem C1_replace_without_stop :
    ∀ (m : ProcessManager) (cfg : ProcessConfig) (old : ManagedProcess)
      (pid : Nat) (id wallNow : String),
      (m.processes.map Prod.fst).Nodup →
      alLookup cfg.name m.processes = some old →
      (∀ e ∈ m.processes, e.2.info.id = old.info.id → e.1 = cfg.name) →
      id ≠ old.info.id →
      (m.start_process (.ok pid) id wallNow cfg).2.2 = .ok id ∧
      (m.start_process (.ok pid) id wallNow cfg).2.1 = [] ∧
      old.info.id ∉
        ((m.start_process (.ok pid) id wallNow cfg).1.list_processes).map
          ProcessInfo.id ∧
      alLookup cfg.name (m.start_process (.ok pid) id wallNow cfg).1.processes =
        some ((ManagedProcess.new cfg id wallNow).start (.ok pid) wallNow).1 := by
  intro m cfg old pid id wallNow hnd hold hid hfresh
  have hred : m.start_process (.ok pid) id wallNow cfg =
      (({ m with
          processes :=
            alInsert cfg.name
              ((ManagedProcess.new cfg id wallNow).start (.ok pid) wallNow).1
              m.processes } : ProcessManager).save_state,
       [], .ok id) := rfl
  refine ⟨by rw [hred], by rw [hred], ?_, ?_⟩
  · rw [hred]
    simp only [ProcessManager.save_state, ProcessManager.list_processes,
      List.map_map, List.mem_map]
    rintro ⟨e, he, heq⟩
    rcases mem_alInsert_nodup hnd he with h | ⟨hmem, hne⟩
    · apply hfresh
      rw [← heq, h]
      rfl
    · exact hne (hid e hmem heq)
  · rw [hred]
    simp only [ProcessManager.save_state]
    exact alLookup_alInsert_self _ _ _

/-- C1 counterexample: over the roster `m0` that runs `oldA` (child pid 7)
under the name `a`, `start_process cfgA` succeeds — yet its signal list is
empty: no SIGTERM is ever sent, so the old child is not stopped and keeps
running, contradicting "stops that old entry ... and the old child is no
longer running". -/
theorem C1_counterexample :
    (m0.start_process (.ok 9) "id-new" "t1" cfgA).2.2 = .ok "id-new" ∧
    oldA.child = some { pid := some 7 } ∧
    (m0.start_process (.ok 9) "id-new" "t1" cfgA).2.1 = [] :=
  ⟨rfl, rfl, rfl⟩

/-- Witness for C1: instantiated at `m0`, `cfgA`, `oldA`. -/
theorem C1_replace_without_stop_witness :
    ("id-new" : String) ≠ oldA.info.id ∧
    oldA.info.id ∉
      ((m0.start_process (.ok 9) "id-new" "t1" cfgA).1.list_processes).map
        ProcessInfo.id :=
  ⟨by decide,
   (C1_replace_without_stop m0 cfgA oldA 9 "id-new" "t1" (by decide) (by decide)
      (by rintro e he h; simp [m0] at he; subst he; rfl) (by decide)).2.2.1⟩

/-! ### Claim C4 -/

/-- C4 (corrected): handling `ResurrectProcesses` reloads the persisted roster
but does not re-spawn anything: it answers `Success "Processes resurrected"`,
signals nothing, and every entry of the resulting roster is a freshly
reconstructed `ManagedProcess` in `Stopped` state with no child handle, whose
config comes from the persisted list. -/
theorem C4_resurrect_restores_stopped :
    ∀ (env : HandlerEnv) (m : ProcessManager),
      (handle_request env .ResurrectProcesses m).2.2 =
        .Success "Processes resurrected" ∧
      (handle_request env .ResurrectProcesses m).2.1 = [] ∧
      ∀ e ∈ (handle_request env .ResurrectProcesses m).1.processes,
        e.2.info.status = .Stopped ∧ e.2.child = none ∧
        ∀ configs, m.store = some configs → e.2.info.config ∈ configs := by
  intro env m
  have hred : handle_request env .ResurrectProcesses m =
      ({ m with processes := load_processes env.newId env.wallNow m.store },
       [], .Success "Processes resurrected") := rfl
  refine ⟨by rw [hred], by rw [hred], ?_⟩
  intro e he
  rw [hred] at he
  simp only at he
  cases hs : m.store with
  | none =>
      rw [hs] at he
      simp [load_processes] at he
  | some configs =>
      rw [hs] at he
      rcases mem_load_processes he with ⟨config, hc, hee⟩
      subst hee
      refine ⟨rfl, rfl, ?_⟩
      intro configs' hcfg'
      injection hcfg' with hh
      subst hh
      exact hc

/-- C4 counterexample: resurrecting from a store holding `[cfgA]` yields the
entry for `a` in `Stopped` state with no child — it has not been spawned —
while the response still reads `Success`, contradicting "has been started
(spawned) again, not merely re-inserted into the roster in a stopped
state". -/
theorem C4_counterexample :
    (handle_request env0 .ResurrectProcesses mStore).2.2 =
      .Success "Processes resurrected" ∧
    alLookup "a" (handle_request env0 .ResurrectProcesses mStore).1.processes =
      some (ManagedProcess.new cfgA "id-res" "t1") ∧
    (ManagedProcess.new cfgA "id-res" "t1").info.status = .Stopped ∧
    (ManagedProcess.new cfgA "id-res" "t1").child = none :=
  ⟨rfl, rfl, rfl, rfl⟩

/-- Witness for C4: instantiated at `env0` and the store `[cfgA]`. -/
theorem C4_resurrect_restores_stopped_witness :
    ("a", ManagedProcess.new cfgA "id-res" "t1") ∈
      (handle_request env0 .ResurrectProcesses mStore).1.processes ∧
    (ManagedProcess.new cfgA "id-res" "t1").info.status = .Stopped :=
  ⟨by decide,
   ((C4_resurrect_restores_stopped env0 mStore).2.2
      ("a", ManagedProcess.new cfgA "id-res" "t1") (by decide)).1⟩

/-! ### Claim C7 -/

theorem load_foldl_configs (newId : String → String) (wallNow : String) :
    ∀ (cfgs : List ProcessConfig) (acc : List (String × ManagedProcess)),
      (cfgs.map ProcessConfig.name).Nodup →
      (∀ n ∈ cfgs.map ProcessConfig.name, n ∉ acc.map Prod.fst) →
      ((cfgs.foldl
          (fun acc config =>
            alInsert config.name
              (ManagedProcess.new config (newId config.name) wallNow) acc)
          acc).map (fun e => e.2.info.config) =
        acc.map (fun e => e.2.info.config) ++ cfgs ∧
       (cfgs.foldl
          (fun acc config =>
            alInsert config.name
              (ManagedProcess.new config (newId config.name) wallNow) acc)
          acc).map Prod.fst =
        acc.map Prod.fst ++ cfgs.map ProcessConfig.name) := by
  intro cfgs
  induction cfgs with
  | nil => intro acc _ _; simp
  | cons c rest ih =>
      intro acc hnd hdisj
      simp only [List.map_cons, List.nodup_cons] at hnd
      have hcn : c.name ∉ acc.map Prod.fst :=
        hdisj c.name (by simp)
      have hstep :
          alInsert c.name (ManagedProcess.new c (newId c.name) wallNow) acc =
            acc ++ [(c.name, ManagedProcess.new c (newId c.name) wallNow)] :=
        alInsert_of_not_mem_keys hcn
      have hdisj' : ∀ n ∈ rest.map ProcessConfig.name,
          n ∉ (acc ++
            [(c.name, ManagedProcess.new c (newId c.name) wallNow)]).map
              Prod.fst := by
        intro n hn
        simp only [List.map_append, List.mem_append]
        push_neg
        refine ⟨hdisj n (List.mem_cons_of_mem _ hn), ?_⟩
        intro habs
        simp at habs
        exact hnd.1 (habs ▸ hn)
      have hrest := ih
        (acc ++ [(c.name, ManagedProcess.new c (newId c.name) wallNow)])
        hnd.2 hdisj'
      rw [List.foldl_cons, hstep]
      constructor
      · rw [hrest.1]
        simp [ManagedProcess.new]
      · rw [hrest.2]
        simp

/-- C7: saving a roster with unique, coherent keys (each key is its entry's
config name — both properties the manager maintains) and loading the result
into a fresh manager yields a roster whose configs are, as a set, exactly the
original configs. -/
theorem C7_save_load_roundtrip :
    ∀ (m : ProcessManager) (newId : String → String) (wallNow : String),
      (m.processes.map Prod.fst).Nodup →
      (∀ e ∈ m.processes, e.2.info.config.name = e.1) →
      ∀ c : ProcessConfig,
        (c ∈ ((ProcessManager.load_state newId wallNow
                ⟨[], m.save_state.store⟩).1.processes.map
                  (fun e => e.2.info.config)) ↔
          c ∈ m.processes.map (fun e => e.2.info.config)) := by
  intro m newId wallNow hnd hcoh c
  have hnames :
      (m.processes.map (fun e => e.2.info.config)).map ProcessConfig.name =
        m.processes.map Prod.fst := by
    rw [List.map_map]
    exact List.map_congr_left (fun e he => hcoh e he)
  have hload := load_foldl_configs newId wallNow
    (m.processes.map (fun e => e.2.info.config)) []
    (by rw [hnames]; exact hnd) (by simp)
  have hshow : (ProcessManager.load_state newId wallNow
      ⟨[], m.save_state.store⟩).1.processes =
      (m.processes.map (fun e => e.2.info.config)).foldl
        (fun acc config =>
          alInsert config.name
            (ManagedProcess.new config (newId config.name) wallNow) acc) [] := rfl
  rw [hshow, hload.1]
  simp

/-- Witness for C7: instantiated at the one-entry roster `m0`. -/
theorem C7_save_load_roundtrip_witness :
    (m0.processes.map Prod.fst).Nodup ∧
    (cfgA ∈ ((ProcessManager.load_state (fun _ => "id-res") "t2"
          ⟨[], m0.save_state.store⟩).1.processes.map
            (fun e => e.2.info.config)) ↔
      cfgA ∈ m0.processes.map (fun e => e.2.info.config)) :=
  ⟨by decide,
   C7_save_load_roundtrip m0 (fun _ => "id-res") "t2" (by decide)
     (by rintro e he; simp [m0] at he; subst he; rfl) cfgA⟩

/-! ### Claim C8 -/

theorem exc_bind_ok {α β : Type} (a : α) (f : α → Except String β) :
    (Except.ok a >>= f) = f a := rfl

theorem exc_map_ok {α β : Type} (f : α → β) (a : α) :
    (Except.ok a : Except String α).map f = .ok (f a) := rfl

theorem decodeNat_encodeNat (n : Nat) : decodeNat (encodeNat n) = .ok n := rfl

theorem decodeOptionNat_encode (x : Option Nat) :
    decodeOption decodeNat (encodeOption encodeNat x) = .ok x := by
  cases x <;> rfl

theorem decodeOptionString_encode (x : Option String) :
    decodeOption decodeString (encodeOption encodeString x) = .ok x := by
  cases x <;> rfl

theorem decodeProcessStatus_encode (s : ProcessStatus) :
    decodeProcessStatus (encodeProcessStatus s) = .ok s := by
  cases s <;> rfl

theorem decodeEnvPair_encode (kv : String × String) :
    decodeEnvPair (encodeEnvPair kv) = .ok kv := rfl

theorem mapM_decode_encode {α : Type} (f : Json → Except String α) (g : α → Json)
    (h : ∀ a, f (g a) = .ok a) : ∀ xs : List α, (xs.map g).mapM f = .ok xs := by
  intro xs
  rw [← List.mapM'_eq_mapM]
  induction xs with
  | nil => rfl
  | cons x rest ih =>
      rw [List.map_cons, List.mapM'_cons, h x, exc_bind_ok, ih, exc_bind_ok]
      rfl

theorem decodeList_encode {α : Type} (f : Json → Except String α) (g : α → Json)
    (h : ∀ a, f (g a) = .ok a) (xs : List α) :
    decodeList f (.arr (xs.map g)) = .ok xs :=
  mapM_decode_encode f g h xs

theorem decodeProcessConfig_encode (c : ProcessConfig) :
    decodeProcessConfig (encodeProcessConfig c) = .ok c := by
  obtain ⟨name, command, cwd, instances, autorestart, max_memory, env⟩ := c
  have henv := decodeList_encode decodeEnvPair encodeEnvPair
    decodeEnvPair_encode env
  cases cwd <;> cases max_memory <;>
    · change Except.bind
        (decodeList decodeEnvPair (Json.arr (List.map encodeEnvPair env))) _ = _
      rw [henv]
      rfl

theorem decodeProcessInfo_encode (i : ProcessInfo) (q : Rat)
    (hfin : i.cpu_usage = .finite q) :
    decodeProcessInfo (encodeProcessInfo i) = .ok i := by
  obtain ⟨id, name, command, status, pid, cpu, mem, st, rst, config⟩ := i
  simp only at hfin
  subst hfin
  have hcfg := decodeProcessConfig_encode config
  cases status <;> cases pid <;>
    · change Except.bind (decodeProcessConfig (encodeProcessConfig config)) _ = _
      rw [hcfg]
      rfl

theorem mapM_decodeProcessInfo_encode (ps : List ProcessInfo)
    (h : ∀ i ∈ ps, ∃ q, i.cpu_usage = F64.finite q) :
    (ps.map encodeProcessInfo).mapM decodeProcessInfo = .ok ps := by
  rw [← List.mapM'_eq_mapM]
  induction ps with
  | nil => rfl
  | cons p rest ih =>
      rcases h p (List.mem_cons_self _ _) with ⟨q, hq⟩
      rw [List.map_cons, List.mapM'_cons, decodeProcessInfo_encode p q hq,
        exc_bind_ok, ih (fun i hi => h i (List.mem_cons_of_mem _ hi)),
        exc_bind_ok]
      rfl

/-- C8 (corrected): the IPC codec round-trips on every request, and on every
response all of whose `cpu_usage` floats are finite.  (A non-finite
`cpu_usage` breaks the round trip: see the counterexample.) -/
theorem C8_codec_roundtrip :
    (∀ v : IpcRequest, decodeIpcRequest (encodeIpcRequest v) = .ok v) ∧
    (∀ v : IpcResponse, v.floatsFinite = true →
        decodeIpcResponse (encodeIpcResponse v) = .ok v) := by
  constructor
  · intro v
    cases v with
    | StartProcess config =>
        change (decodeProcessConfig (encodeProcessConfig config)).map _ = _
        rw [decodeProcessConfig_encode]
        rfl
    | _ => rfl
  · intro v hfin
    cases v with
    | Success msg => rfl
    | Error msg => rfl
    | Logs lines =>
        change (decodeList decodeString (Json.arr (List.map encodeString lines))).map _ = _
        rw [decodeList_encode decodeString encodeString (fun _ => rfl) lines]
        rfl
    | ProcessInfo info =>
        simp only [IpcResponse.floatsFinite] at hfin
        rcases hq : info.cpu_usage with q | _ | _ | _
        · change (decodeProcessInfo (encodeProcessInfo info)).map _ = _
          rw [decodeProcessInfo_encode info q hq]
          rfl
        · rw [hq] at hfin; simp at hfin
        · rw [hq] at hfin; simp at hfin
        · rw [hq] at hfin; simp at hfin
    | ProcessList ps =>
        have hall : ∀ i ∈ ps, ∃ q, i.cpu_usage = F64.finite q := by
          intro i hi
          have hia := List.all_eq_true.mp hfin i hi
          rcases hq : i.cpu_usage with q | _ | _ | _ <;> rw [hq] at hia
          · exact ⟨q, rfl⟩
          all_goals simp at hia
        change (decodeList decodeProcessInfo
          (Json.arr (List.map encodeProcessInfo ps))).map _ = _
        rw [show decodeList decodeProcessInfo
            (Json.arr (List.map encodeProcessInfo ps)) =
            (ps.map encodeProcessInfo).mapM decodeProcessInfo from rfl]
        rw [mapM_decodeProcessInfo_encode ps hall]
        rfl

/-- C8 counterexample: a response whose snapshot carries `cpu_usage = NaN` is
encoded with `null` in that position (serde_json's behaviour for non-finite
doubles) and fails to decode — `decode (encode v)` is an error, not `v`. -/
theorem C8_counterexample :
    encodeF64 infoNan.cpu_usage = .null ∧
    decodeIpcResponse (encodeIpcResponse (.ProcessInfo infoNan)) =
      .error "invalid type: expected f64" :=
  ⟨rfl, rfl⟩

/-- Witness for C8: a concrete request and a concrete finite-float response
round-trip. -/
theorem C8_codec_roundtrip_witness :
    (IpcResponse.Success "ok").floatsFinite = true ∧
    decodeIpcResponse (encodeIpcResponse (.Success "ok")) = .ok (.Success "ok") ∧
    decodeIpcRequest (encodeIpcRequest .ListProcesses) = .ok .ListProcesses :=
  ⟨rfl, C8_codec_roundtrip.2 (.Success "ok") rfl,
   C8_codec_roundtrip.1 .ListProcesses⟩

end RPM
